import Mathlib

/-!
Shallow embedding of the registration-form component in `src/src/App.tsx`:
the zod validation schema (lines 6-26), the react-hook-form submission
lifecycle (lines 30-48), and the `useFieldArray` dynamic skills list
(lines 40-43, 112-135).  Strings are Lean `String`s; the JavaScript string
operations the schema uses (`trim`, `length`, the two regexes) are embedded
below over the character list of the string.
-/

/-- The whitespace class of JavaScript `String.prototype.trim`
(WhiteSpace and LineTerminator code points). -/
def isJsWhitespace (c : Char) : Bool :=
  c = ' ' || c = '\t' || c = '\n' || c = '\r' ||
  c = Char.ofNat 11 || c = Char.ofNat 12 || c = Char.ofNat 0xa0 ||
  c = Char.ofNat 0xfeff || c = Char.ofNat 0x1680 ||
  (0x2000 ≤ c.toNat && c.toNat ≤ 0x200a) ||
  c = Char.ofNat 0x2028 || c = Char.ofNat 0x2029 ||
  c = Char.ofNat 0x202f || c = Char.ofNat 0x205f || c = Char.ofNat 0x3000

/-- JavaScript `s.trim()`: drop leading and trailing whitespace. -/
def jsTrim (s : String) : String :=
  ⟨((s.data.dropWhile isJsWhitespace).reverse.dropWhile isJsWhitespace).reverse⟩

/-- One element of the `skills` array: a record with a single string field
`value` (App.tsx lines 19-23). -/
structure SkillEntry where
  value : String
deriving DecidableEq

/-- The candidate record validated by `schema` (App.tsx lines 6-26), i.e. the
type `FormData = z.infer<typeof schema>` of line 28.  `message` is
`z.string().optional()`, hence an optional string. -/
structure FormData where
  firstName : String
  lastName : String
  email : String
  contact : String
  role : String
  skills : List SkillEntry
  message : Option String
deriving DecidableEq

/-- Per-field error mapping produced by one validation pass, as surfaced by
`zodResolver` to the react-hook-form `errors` object: for each field the
message of the first failing check in declaration order, or `none` when the field is
valid.  `skillsArray` is the array-level error (`errors.skills.message`,
App.tsx line 136); `skillEntries.get? i` is the error of `skills.i.value`. -/
structure ValidationResult where
  firstName : Option String
  lastName : Option String
  email : Option String
  contact : Option String
  role : Option String
  skillsArray : Option String
  skillEntries : List (Option String)
deriving DecidableEq

/-- Embeds the local-body character class of the zod email regex: letters,
digits, underscore, the apostrophe character (code 39), plus, hyphen, dot. -/
def isEmailLocalChar (c : Char) : Bool :=
  c.isAlpha || c.isDigit || c = '_' || c = Char.ofNat 39 ||
  c = '+' || c = '-' || c = '.'

/-- Embeds the character class the zod email regex allows directly before the
at sign: letters, digits, underscore, plus, hyphen. -/
def isEmailLocalLastChar (c : Char) : Bool :=
  c.isAlpha || c.isDigit || c = '_' || c = '+' || c = '-'

/-- Does the character list contain two consecutive dots?  Embeds the
negative lookahead of the zod email regex that forbids them. -/
def hasDoubleDot : List Char → Bool
  | [] => false
  | [_] => false
  | a :: b :: rest => (a = '.' && b = '.') || hasDoubleDot (b :: rest)

/-- Split a character list on a separator character (the separator itself is
dropped; adjacent separators yield empty pieces). -/
def splitOnChar (sep : Char) : List Char → List (List Char)
  | [] => [[]]
  | c :: rest =>
    match splitOnChar sep rest with
    | [] => if c = sep then [[], []] else [[c]]
    | h :: t => if c = sep then [] :: h :: t else (c :: h) :: t

/-- Embeds one domain label of the zod email regex: an alphanumeric first
character followed by alphanumerics or hyphens. -/
def emailLabelOk : List Char → Bool
  | [] => false
  | c :: rest => (c.isAlpha || c.isDigit) &&
      rest.all (fun d => d.isAlpha || d.isDigit || d = '-')

/-- Embeds the final top-level-domain piece of the zod email regex: two or
more letters. -/
def emailTldOk (l : List Char) : Bool :=
  2 ≤ l.length && l.all Char.isAlpha

/-- Embeds the domain part after the at sign: one or more dot-terminated
labels followed by the top-level domain. -/
def emailDomainOk (l : List Char) : Bool :=
  let parts := splitOnChar '.' l
  2 ≤ parts.length && parts.dropLast.all emailLabelOk &&
    emailTldOk (parts.getLastD [])

/-- Embeds the local part before the at sign: zero or more local-body
characters followed by one local-last character. -/
def emailLocalOk (l : List Char) : Bool :=
  match l.reverse with
  | [] => false
  | last :: bodyRev => isEmailLocalLastChar last && bodyRev.all isEmailLocalChar

/-- Embeds the .email() check of zod as one decidable function: no leading
dot, no two consecutive dots anywhere, a valid local part, exactly one at
sign, and a dotted domain ending in an alphabetic top-level domain. -/
def zodEmailCheck (s : String) : Bool :=
  match splitOnChar '@' s.data with
  | [lp, domain] =>
    !(s.data.head? = some '.') && !hasDoubleDot s.data &&
      emailLocalOk lp && emailDomainOk domain
  | _ => false

/-- Embeds firstName: z.string().min(1, ...).refine on a non-blank trim
(App.tsx lines 7-9); the reported message is that of the first failing
check in declaration order. -/
def firstNameError (s : String) : Option String :=
  if s.length < 1 then some "First Name is required"
  else if jsTrim s = "" then some "First Name cannot be empty spaces"
  else none

/-- Embeds lastName, validated like firstName (App.tsx lines 10-12). -/
def lastNameError (s : String) : Option String :=
  if s.length < 1 then some "Last Name is required"
  else if jsTrim s = "" then some "Last Name cannot be empty spaces"
  else none

/-- Embeds email: z.string().min(1, ...).email(...) (App.tsx line 13). -/
def emailError (s : String) : Option String :=
  if s.length < 1 then some "Email is required"
  else if zodEmailCheck s then none
  else some "Invalid email address"

/-- Embeds the contact regex of App.tsx line 16: exactly ten decimal digit
characters. -/
def contactRegexMatch (s : String) : Bool :=
  s.length = 10 && s.data.all Char.isDigit

/-- Embeds contact: z.string().min(1, ...).regex(...) (App.tsx lines 14-16). -/
def contactError (s : String) : Option String :=
  if s.length < 1 then some "Contact number is required"
  else if contactRegexMatch s then none
  else some "Contact must be 10 digits"

/-- Embeds role: z.string().min(1, ...) (App.tsx line 17).  Note the schema
places no other constraint on the role string. -/
def roleError (s : String) : Option String :=
  if s.length < 1 then some "Role is required" else none

/-- Embeds the validator of one skills entry value, validated like firstName
but with the skill messages (App.tsx lines 20-22). -/
def skillEntryError (s : String) : Option String :=
  if s.length < 1 then some "Skill is required"
  else if jsTrim s = "" then some "Skill cannot be empty spaces"
  else none

/-- Embeds the array-level min(1) check on the skills array
(App.tsx line 24). -/
def skillsArrayError (l : List SkillEntry) : Option String :=
  if l.length < 1 then some "At least one skill is required" else none

/-- One validation pass of `schema` over a candidate record, field by field
(`message` is unconstrained and has no error slot). -/
def validate (r : FormData) : ValidationResult where
  firstName := firstNameError r.firstName
  lastName := lastNameError r.lastName
  email := emailError r.email
  contact := contactError r.contact
  role := roleError r.role
  skillsArray := skillsArrayError r.skills
  skillEntries := r.skills.map (fun e => skillEntryError e.value)

/-- Does the result contain any error, i.e. does `handleSubmit` block the
submission? -/
def ValidationResult.hasError (v : ValidationResult) : Bool :=
  v.firstName.isSome || v.lastName.isSome || v.email.isSome ||
  v.contact.isSome || v.role.isSome || v.skillsArray.isSome ||
  v.skillEntries.any Option.isSome

/-- The empty `errors` object: no field has an error recorded. -/
def ValidationResult.noErrors : ValidationResult :=
  ⟨none, none, none, none, none, none, []⟩

/-- The form values produced by `reset()` with the `useForm` `defaultValues`
of App.tsx lines 35-37: one empty skill entry, every other input empty. -/
def defaultForm : FormData :=
  { firstName := "", lastName := "", email := "", contact := "", role := "",
    skills := [⟨""⟩], message := some "" }

/-- State owned by the `App` component: the current form values, the
`submittedData` of `useState` (App.tsx line 31), and the displayed `errors`. -/
structure AppState where
  formValues : FormData
  submittedData : Option FormData
  errors : ValidationResult
deriving DecidableEq

/-- Initial component state: default form values, nothing submitted. -/
def initialState : AppState :=
  ⟨defaultForm, none, ValidationResult.noErrors⟩

/-- One submit action: `handleSubmit(onSubmit)` (App.tsx lines 45-48, 54) runs
the resolver over the current values; on any error it populates `errors` and
keeps the values and `submittedData`; otherwise `onSubmit` stores the record
in `submittedData` and `reset()` restores the default values. -/
def submit (s : AppState) : AppState :=
  let result := validate s.formValues
  if result.hasError then { s with errors := result }
  else { formValues := defaultForm, submittedData := some s.formValues,
         errors := ValidationResult.noErrors }

/-!  The `useFieldArray` dynamic skills list (App.tsx lines 40-43, 112-135).
The controller itself lives in react-hook-form, outside this repository; its
contract is modelled from the spec: `append` adds one entry at the end with a
fresh stable identity (a monotonically increasing counter, never reused even
after removals), `remove i` deletes the entry at position `i` but is blocked
by the UI when only one entry remains (the X button is disabled when
fields.length equals 1, App.tsx line 123), and `update` rewrites the value
of one entry in place. -/

/-- State of the dynamic skills list: the entries, each carrying its stable
identity key and current value, and the next fresh identity. -/
structure SkillsState where
  entries : List (Nat × String)
  nextId : Nat
deriving DecidableEq

/-- The three user actions on the skills list: the Add Skill button
(App.tsx line 131, append of an empty value), the per-row X button
(App.tsx line 121, remove at the row index), and typing into the input of a
row. -/
inductive SkillOp where
  | append : SkillOp
  | remove : Nat → SkillOp
  | update : Nat → String → SkillOp
deriving DecidableEq

/-- Modelled from the spec: apply one list action.  `append` adds `(nextId, "")`
at the end and bumps the counter; `remove i` is a no-op when a single entry
remains (the X button is disabled then) and otherwise deletes position `i`;
`update i v` replaces the value at position `i`, keeping its identity. -/
def applyOp (s : SkillsState) : SkillOp → SkillsState
  | .append => ⟨s.entries ++ [(s.nextId, "")], s.nextId + 1⟩
  | .remove i =>
    if s.entries.length = 1 then s else ⟨s.entries.eraseIdx i, s.nextId⟩
  | .update i v =>
    match s.entries[i]? with
    | some e => ⟨s.entries.set i (e.1, v), s.nextId⟩
    | none => s

/-- The initial skills list: the single default empty entry. -/
def initSkills : SkillsState := ⟨[(0, "")], 1⟩

/-- Run a sequence of list actions from the initial list. -/
def runOps (ops : List SkillOp) : SkillsState :=
  ops.foldl applyOp initSkills

/-- The record of the end-to-end success example in spec section 8. -/
def recAnn : FormData :=
  { firstName := "Ann", lastName := "Lee", email := "ann@x.com",
    contact := "1234567890", role := "developer",
    skills := [⟨"Go"⟩], message := some "" }

/-- Record recAnn with the single skill replaced by a whitespace-only value
(the end-to-end failure example in spec section 8). -/
def recWsSkill : FormData :=
  { recAnn with skills := [⟨"   "⟩] }

/-- Record recAnn with role changed to manager, a value the UI select never
offers. -/
def recManager : FormData :=
  { recAnn with role := "manager" }

/-- A record with every input empty, as on first render. -/
def recEmpty : FormData := defaultForm

/-- Record recAnn with a whitespace-only (but non-empty) first name. -/
def recWsName : FormData :=
  { recAnn with firstName := "   " }

/-- Record recAnn with an empty skills list. -/
def recNoSkills : FormData :=
  { recAnn with skills := [] }

/-- Spec-side predicate (spec sections 4.1 and 8): the value is empty or reduces to the
empty string after trimming whitespace. -/
def blankValue (s : String) : Bool :=
  s = "" || jsTrim s = ""

/-- Spec-side predicate (spec sections 4.1 and 8): the contact value is a string of exactly
10 decimal digits. -/
def specTenDigitContact (s : String) : Bool :=
  s.length = 10 && s.data.all Char.isDigit

/-- The identity keys of the skills-list entries, in display order. -/
def idsOf (s : SkillsState) : List Nat :=
  s.entries.map Prod.fst

/-- Identity-key invariant of the skills list: keys are pairwise distinct and
all below the fresh counter. -/
def GoodIds (s : SkillsState) : Prop :=
  (idsOf s).Nodup ∧ ∀ e ∈ s.entries, e.1 < s.nextId


theorem string_length_lt_one_iff (s : String) : s.length < 1 ↔ s = "" := by
  constructor
  · intro h
    have hd : s.data = [] := List.length_eq_zero.mp (Nat.lt_one_iff.mp h)
    cases s with
    | mk d => subst hd; rfl
  · intro h; subst h; decide

theorem minTrimCheck_isSome (m₁ m₂ s : String) :
    (if s.length < 1 then some m₁ else if jsTrim s = "" then some m₂ else none).isSome
      = blankValue s := by
  by_cases h1 : s.length < 1
  · have hs : s = "" := (string_length_lt_one_iff s).mp h1
    subst hs
    simp [blankValue]
  · have h0 : ¬ s.length = 0 := by omega
    have hs : ¬ s = "" := fun h => h1 (by subst h; decide)
    by_cases h2 : jsTrim s = "" <;> simp [h1, h0, h2, blankValue, hs]

theorem firstNameError_isSome (s : String) :
    (firstNameError s).isSome = blankValue s :=
  minTrimCheck_isSome _ _ s

theorem lastNameError_isSome (s : String) :
    (lastNameError s).isSome = blankValue s :=
  minTrimCheck_isSome _ _ s

theorem skillEntryError_isSome (s : String) :
    (skillEntryError s).isSome = blankValue s :=
  minTrimCheck_isSome _ _ s

theorem contactError_none_iff (s : String) :
    contactError s = none ↔ specTenDigitContact s = true := by
  unfold contactError specTenDigitContact contactRegexMatch
  by_cases h1 : s.length < 1
  · have h10 : ¬ s.length = 10 := by omega
    simp [h1, h10]
  · by_cases h2 : (s.length = 10 && s.data.all Char.isDigit) = true <;>
      simp [h1, h2]

/-- C1: the claim is refuted at role value `"manager"`: the schema validator
(App.tsx line 17) accepts it although it is outside the enumerated set the
UI select offers, so `"manager"` does not produce a role error. -/
theorem role_manager_counterexample :
    recManager.role = "manager" ∧
    ¬ (recManager.role = "student" ∨ recManager.role = "developer" ∨
        recManager.role = "designer") ∧
    (validate recManager).role = none := by decide

/-- C1 (amended): the schema validator checks only that role is non-empty:
an empty/unselected role yields the error "Role is required", and any
non-empty string — including "manager" — passes schema validation; the
enumerated set of roles is enforced only by the options of the UI select. -/
theorem role_schema_check (r : FormData) :
    (validate r).role = if r.role = "" then some "Role is required" else none := by
  show roleError r.role = _
  unfold roleError
  by_cases h : r.role = ""
  · rw [h]; simp
  · have h1 : ¬ r.role.length < 1 := fun hl => h ((string_length_lt_one_iff _).mp hl)
    simp [h, h1]

/-- C2: the schema validator marks the contact field valid iff its value is a
string of exactly 10 decimal digits; "1234567890" is valid, while
"123456789", "12345678901" and "123-456-7890" each produce a contact error. -/
theorem contact_valid_iff_ten_digits :
    (∀ r : FormData, ((validate r).contact = none ↔ specTenDigitContact r.contact = true)) ∧
    contactError "1234567890" = none ∧
    contactError "123456789" = some "Contact must be 10 digits" ∧
    contactError "12345678901" = some "Contact must be 10 digits" ∧
    contactError "123-456-7890" = some "Contact must be 10 digits" :=
  ⟨fun r => contactError_none_iff r.contact, by decide, by decide, by decide, by decide⟩

/-- C3: firstName and lastName are marked invalid exactly when the value is
empty or trims to the empty string, and likewise for every skills entry at
its own position — a whitespace-only value is invalid in exactly the same
cases as the empty value. -/
theorem blank_fields_invalid (r : FormData) :
    ((validate r).firstName.isSome = blankValue r.firstName) ∧
    ((validate r).lastName.isSome = blankValue r.lastName) ∧
    ((validate r).skillEntries.map Option.isSome
      = r.skills.map fun e => blankValue e.value) := by
  refine ⟨firstNameError_isSome r.firstName, lastNameError_isSome r.lastName, ?_⟩
  show (r.skills.map fun e => skillEntryError e.value).map Option.isSome = _
  rw [List.map_map]
  exact List.map_congr_left fun e _ => skillEntryError_isSome e.value

/-- C10: when a field chains several checks, the reported message is that of
the first failing check in declaration order: an empty firstName yields
"First Name is required" while a whitespace-only non-empty firstName yields
"First Name cannot be empty spaces"; an empty contact yields "Contact number
is required" rather than "Contact must be 10 digits"; an empty email yields
"Email is required" rather than "Invalid email address". -/
theorem first_failing_check_message :
    (∀ r : FormData, r.firstName = "" →
      (validate r).firstName = some "First Name is required") ∧
    (∀ r : FormData, r.firstName ≠ "" → jsTrim r.firstName = "" →
      (validate r).firstName = some "First Name cannot be empty spaces") ∧
    (∀ r : FormData, r.contact = "" →
      (validate r).contact = some "Contact number is required") ∧
    (∀ r : FormData, r.email = "" →
      (validate r).email = some "Email is required") := by
  refine ⟨fun r h => ?_, fun r h hw => ?_, fun r h => ?_, fun r h => ?_⟩
  · show firstNameError r.firstName = _
    rw [h]; rfl
  · show firstNameError r.firstName = _
    have h1 : ¬ r.firstName.length < 1 := fun hl => h ((string_length_lt_one_iff _).mp hl)
    unfold firstNameError
    simp [h1, hw]
  · show contactError r.contact = _
    rw [h]; rfl
  · show emailError r.email = _
    rw [h]; rfl

/-- C10 witness at concrete records: the empty form for the "required"
messages, a whitespace-only first name for the refine message. -/
theorem first_failing_check_message_witness :
    (validate recEmpty).firstName = some "First Name is required" ∧
    (validate recWsName).firstName = some "First Name cannot be empty spaces" ∧
    (validate recEmpty).contact = some "Contact number is required" ∧
    (validate recEmpty).email = some "Email is required" :=
  ⟨first_failing_check_message.1 recEmpty rfl,
   first_failing_check_message.2.1 recWsName (by decide) (by decide),
   first_failing_check_message.2.2.1 recEmpty rfl,
   first_failing_check_message.2.2.2 recEmpty rfl⟩

theorem skillsArrayError_none_iff (l : List SkillEntry) :
    skillsArrayError l = none ↔ 1 ≤ l.length := by
  unfold skillsArrayError
  by_cases h : l.length < 1 <;> simp [h] <;> omega

theorem skillEntryError_isNone (s : String) :
    (skillEntryError s).isNone = !blankValue s := by
  rw [← skillEntryError_isSome s]
  cases skillEntryError s <;> rfl

theorem all_map_general {α β : Type} (f : α → β) (p : β → Bool) (l : List α) :
    (l.map f).all p = l.all fun a => p (f a) := by
  induction l with
  | nil => rfl
  | cons a t ih => simp [List.all_cons, ih]

/-- C4: the skills list validates exactly when it has at least one entry and
every entry is non-blank; the error of an entry is recorded at the index of
that entry; and submitting with the single whitespace skill records the error at
skills index 0 while the state keeps its values and does not transition. -/
theorem skills_list_validation :
    (∀ r : FormData,
      (((validate r).skillsArray = none ∧
          (validate r).skillEntries.all Option.isNone = true) ↔
        (1 ≤ r.skills.length ∧ (r.skills.all fun e => !blankValue e.value) = true))) ∧
    (∀ r : FormData, ∀ i : Nat,
      (validate r).skillEntries.get? i
        = (r.skills.get? i).map fun e => skillEntryError e.value) ∧
    ((validate recWsSkill).skillEntries.get? 0
        = some (some "Skill cannot be empty spaces")) ∧
    (submit { formValues := recWsSkill, submittedData := none,
              errors := ValidationResult.noErrors }
       = { formValues := recWsSkill, submittedData := none,
           errors := validate recWsSkill }) := by
  refine ⟨fun r => ?_, fun r i => ?_, by decide, by decide⟩
  · have h2 : ((r.skills.map fun e => skillEntryError e.value).all Option.isNone)
        = (r.skills.all fun e => !blankValue e.value) := by
      rw [all_map_general]
      simp only [skillEntryError_isNone]
    show ((skillsArrayError r.skills = none ∧
      ((r.skills.map fun e => skillEntryError e.value).all Option.isNone) = true) ↔ _)
    rw [h2]
    exact and_congr (skillsArrayError_none_iff r.skills) Iff.rfl
  · show (r.skills.map fun e => skillEntryError e.value).get? i = _
    exact List.get?_map _ _ _

/-- C5: when every field validates, submitting stores the submitted record in
`submittedData` and resets the form values to the default state of one empty
skill entry. -/
theorem submit_success (s : AppState)
    (h : (validate s.formValues).hasError = false) :
    submit s = { formValues := defaultForm, submittedData := some s.formValues,
                 errors := ValidationResult.noErrors } ∧
    defaultForm.skills = [⟨""⟩] := by
  refine ⟨?_, rfl⟩
  unfold submit
  simp [h]

/-- C5 witness: submitting the all-valid record of spec section 8 yields exactly the
Submitted outcome with the form reset. -/
theorem submit_success_witness :
    submit { formValues := recAnn, submittedData := none,
             errors := ValidationResult.noErrors }
      = { formValues := defaultForm, submittedData := some recAnn,
          errors := ValidationResult.noErrors } :=
  (submit_success
    { formValues := recAnn, submittedData := none,
      errors := ValidationResult.noErrors } (by decide)).1

/-- C6: a record with any empty required field gets a non-empty error message
for that field, and a failing submission changes nothing but the displayed
errors: values and the previously held submitted record are retained. -/
theorem invalid_submission_rejected :
    (∀ r : FormData,
      (r.firstName = "" → ∃ m, (validate r).firstName = some m ∧ 0 < m.length) ∧
      (r.lastName = "" → ∃ m, (validate r).lastName = some m ∧ 0 < m.length) ∧
      (r.email = "" → ∃ m, (validate r).email = some m ∧ 0 < m.length) ∧
      (r.contact = "" → ∃ m, (validate r).contact = some m ∧ 0 < m.length) ∧
      (r.role = "" → ∃ m, (validate r).role = some m ∧ 0 < m.length) ∧
      (r.skills = [] → ∃ m, (validate r).skillsArray = some m ∧ 0 < m.length)) ∧
    (∀ s : AppState, (validate s.formValues).hasError = true →
      submit s = { s with errors := validate s.formValues }) := by
  constructor
  · intro r
    refine ⟨fun h => ?_, fun h => ?_, fun h => ?_, fun h => ?_, fun h => ?_, fun h => ?_⟩
    · refine ⟨"First Name is required", ?_, by decide⟩
      show firstNameError r.firstName = _
      rw [h]; decide
    · refine ⟨"Last Name is required", ?_, by decide⟩
      show lastNameError r.lastName = _
      rw [h]; decide
    · refine ⟨"Email is required", ?_, by decide⟩
      show emailError r.email = _
      rw [h]; decide
    · refine ⟨"Contact number is required", ?_, by decide⟩
      show contactError r.contact = _
      rw [h]; decide
    · refine ⟨"Role is required", ?_, by decide⟩
      show roleError r.role = _
      rw [h]; decide
    · refine ⟨"At least one skill is required", ?_, by decide⟩
      show skillsArrayError r.skills = _
      rw [h]; decide
  · intro s h
    unfold submit
    simp [h]

/-- C6 witness: concrete rejected submissions — the empty form (missing first
name and more) and a record with an empty skills list. -/
theorem invalid_submission_rejected_witness :
    (∃ m, (validate recEmpty).firstName = some m ∧ 0 < m.length) ∧
    (∃ m, (validate recNoSkills).skillsArray = some m ∧ 0 < m.length) ∧
    submit initialState = { initialState with errors := validate defaultForm } :=
  ⟨(invalid_submission_rejected.1 recEmpty).1 rfl,
   (invalid_submission_rejected.1 recNoSkills).2.2.2.2.2 rfl,
   invalid_submission_rejected.2 initialState (by decide)⟩

/-- C9: validation is a pure, deterministic function of the candidate record:
re-validating identical input gives an identical result, the errors produced
by a submission depend on nothing but the form values, and an error-producing
submission is idempotent — re-running it changes nothing further. -/
theorem validation_pure :
    (∀ r : FormData, validate r = validate r) ∧
    (∀ s₁ s₂ : AppState, s₁.formValues = s₂.formValues →
      (submit s₁).errors = (submit s₂).errors) ∧
    (∀ s : AppState, (validate s.formValues).hasError = true →
      submit (submit s) = submit s) := by
  refine ⟨fun r => rfl, fun s₁ s₂ h => ?_, fun s h => ?_⟩
  · unfold submit
    rw [h]
    by_cases hv : (validate s₂.formValues).hasError = true <;> simp [hv]
  · have h1 : submit s = { s with errors := validate s.formValues } := by
      unfold submit; simp [h]
    rw [h1]
    unfold submit
    simp [h]

/-- C9 witness: two states sharing form values but differing elsewhere get
identical errors, and re-submitting the invalid initial state is a no-op. -/
theorem validation_pure_witness :
    (submit initialState).errors
        = (submit { formValues := defaultForm, submittedData := some recAnn,
                    errors := ValidationResult.noErrors }).errors ∧
    submit (submit initialState) = submit initialState :=
  ⟨validation_pure.2.1 initialState
      { formValues := defaultForm, submittedData := some recAnn,
        errors := ValidationResult.noErrors } rfl,
   validation_pure.2.2 initialState (by decide)⟩

theorem applyOp_length_pos (s : SkillsState) (op : SkillOp)
    (h : 1 ≤ s.entries.length) : 1 ≤ (applyOp s op).entries.length := by
  cases op with
  | append => simp [applyOp]
  | remove i =>
    show 1 ≤ (if s.entries.length = 1 then s
      else (⟨s.entries.eraseIdx i, s.nextId⟩ : SkillsState)).entries.length
    by_cases h1 : s.entries.length = 1
    · rw [if_pos h1]; exact h
    · rw [if_neg h1]
      show 1 ≤ (s.entries.eraseIdx i).length
      rw [List.length_eraseIdx]
      split <;> omega
  | update i v =>
    show 1 ≤ (match s.entries[i]? with
      | some e => (⟨s.entries.set i (e.1, v), s.nextId⟩ : SkillsState)
      | none => s).entries.length
    cases hg : s.entries[i]? with
    | none => exact h
    | some e =>
      show 1 ≤ (s.entries.set i (e.1, v)).length
      rw [List.length_set]
      exact h

theorem foldl_length_pos (ops : List SkillOp) (s : SkillsState)
    (h : 1 ≤ s.entries.length) : 1 ≤ (ops.foldl applyOp s).entries.length := by
  induction ops generalizing s with
  | nil => exact h
  | cons op t ih => exact ih _ (applyOp_length_pos s op h)

theorem map_fst_set (l : List (Nat × String)) (i : Nat) (v : String)
    (e : Nat × String) (h : l[i]? = some e) :
    (l.set i (e.1, v)).map Prod.fst = l.map Prod.fst := by
  induction l generalizing i with
  | nil => simp at h
  | cons a t ih =>
    cases i with
    | zero =>
      simp at h
      subst h
      simp
    | succ n =>
      simp at h
      simp only [List.set_cons_succ, List.map_cons]
      rw [ih n h]

theorem goodIds_applyOp (s : SkillsState) (op : SkillOp) (h : GoodIds s) :
    GoodIds (applyOp s op) := by
  obtain ⟨hnd, hlt⟩ := h
  cases op with
  | append =>
    constructor
    · show ((s.entries ++ [(s.nextId, "")]).map Prod.fst).Nodup
      rw [List.map_append]
      refine List.Nodup.append hnd (by simp) ?_
      intro a ha hb
      simp at hb
      subst hb
      rcases List.mem_map.mp ha with ⟨e, he, hfe⟩
      exact absurd (hfe ▸ hlt e he) (lt_irrefl _)
    · intro e he
      show e.1 < s.nextId + 1
      rcases List.mem_append.mp he with h1 | h1
      · exact Nat.lt_succ_of_lt (hlt e h1)
      · simp at h1
        simp [h1]
  | remove i =>
    show GoodIds (if s.entries.length = 1 then s
      else (⟨s.entries.eraseIdx i, s.nextId⟩ : SkillsState))
    by_cases h1 : s.entries.length = 1
    · rw [if_pos h1]; exact ⟨hnd, hlt⟩
    · rw [if_neg h1]
      exact ⟨((List.eraseIdx_sublist s.entries i).map Prod.fst).nodup hnd,
        fun e he => hlt e ((List.eraseIdx_sublist s.entries i).subset he)⟩
  | update i v =>
    show GoodIds (match s.entries[i]? with
      | some e => (⟨s.entries.set i (e.1, v), s.nextId⟩ : SkillsState)
      | none => s)
    cases hg : s.entries[i]? with
    | none => exact ⟨hnd, hlt⟩
    | some e =>
      refine ⟨?_, ?_⟩
      · show ((s.entries.set i (e.1, v)).map Prod.fst).Nodup
        rw [map_fst_set s.entries i v e hg]
        exact hnd
      · intro x hx
        show x.1 < s.nextId
        have hm : x.1 ∈ (s.entries.set i (e.1, v)).map Prod.fst :=
          List.mem_map_of_mem _ hx
        rw [map_fst_set s.entries i v e hg] at hm
        rcases List.mem_map.mp hm with ⟨y, hy, hxy⟩
        exact hxy ▸ hlt y hy

theorem goodIds_foldl (ops : List SkillOp) (s : SkillsState) (h : GoodIds s) :
    GoodIds (ops.foldl applyOp s) := by
  induction ops generalizing s with
  | nil => exact h
  | cons op t ih => exact ih _ (goodIds_applyOp s op h)

theorem nextId_le_applyOp (s : SkillsState) (op : SkillOp) :
    s.nextId ≤ (applyOp s op).nextId := by
  cases op with
  | append => exact Nat.le_succ _
  | remove i =>
    show s.nextId ≤ (if s.entries.length = 1 then s
      else (⟨s.entries.eraseIdx i, s.nextId⟩ : SkillsState)).nextId
    split <;> exact Nat.le_refl _
  | update i v =>
    show s.nextId ≤ (match s.entries[i]? with
      | some e => (⟨s.entries.set i (e.1, v), s.nextId⟩ : SkillsState)
      | none => s).nextId
    cases hg : s.entries[i]? with
    | none => exact Nat.le_refl _
    | some e => exact Nat.le_refl _

theorem nextId_le_foldl (ops : List SkillOp) (s : SkillsState) :
    s.nextId ≤ (ops.foldl applyOp s).nextId := by
  induction ops generalizing s with
  | nil => exact Nat.le_refl _
  | cons op t ih => exact Nat.le_trans (nextId_le_applyOp s op) (ih _)

/-- C7: from the initial single-entry list, any sequence of append, remove and
update actions keeps the skills list length at least 1: removing when exactly
one entry remains is a no-op (the button is disabled), while removing at an
index of a longer list deletes exactly that position. -/
theorem skills_min_one_entry :
    (∀ ops : List SkillOp, 1 ≤ (runOps ops).entries.length) ∧
    (∀ s : SkillsState, ∀ i : Nat, s.entries.length = 1 →
      applyOp s (SkillOp.remove i) = s) ∧
    (∀ s : SkillsState, ∀ i : Nat, 1 < s.entries.length →
      (applyOp s (SkillOp.remove i)).entries
        = s.entries.take i ++ s.entries.drop (i + 1)) := by
  refine ⟨fun ops => foldl_length_pos ops initSkills (by decide),
    fun s i h => ?_, fun s i h => ?_⟩
  · show (if s.entries.length = 1 then s
      else (⟨s.entries.eraseIdx i, s.nextId⟩ : SkillsState)) = s
    rw [if_pos h]
  · show (if s.entries.length = 1 then s
      else (⟨s.entries.eraseIdx i, s.nextId⟩ : SkillsState)).entries = _
    have h1 : ¬ s.entries.length = 1 := by omega
    rw [if_neg h1]
    exact List.eraseIdx_eq_take_drop_succ s.entries i

/-- C7 witness: a concrete action sequence keeps length 1; removing from the
one-entry list is a no-op; removing index 0 of a two-entry list deletes
exactly the first entry. -/
theorem skills_min_one_entry_witness :
    1 ≤ (runOps [SkillOp.append, SkillOp.remove 0, SkillOp.remove 0]).entries.length ∧
    applyOp initSkills (SkillOp.remove 0) = initSkills ∧
    (applyOp ⟨[(0, "Go"), (1, "C")], 2⟩ (SkillOp.remove 0)).entries
      = ([(0, "Go"), (1, "C")] : List (Nat × String)).take 0
        ++ ([(0, "Go"), (1, "C")] : List (Nat × String)).drop 1 :=
  ⟨skills_min_one_entry.1 [SkillOp.append, SkillOp.remove 0, SkillOp.remove 0],
   skills_min_one_entry.2.1 initSkills 0 rfl,
   skills_min_one_entry.2.2 ⟨[(0, "Go"), (1, "C")], 2⟩ 0 (by decide)⟩

/-- C8: append adds exactly one entry at the end carrying the fresh identity
key; in every reachable list the keys are pairwise distinct and below the
fresh counter (so a fresh key differs from every current and previously
removed key, the counter being monotone across any further actions); update
never changes keys or their order; and remove keeps the remaining entries in
order (the result is a sublist). -/
theorem skills_identity_keys :
    (∀ s : SkillsState, applyOp s SkillOp.append
        = ⟨s.entries ++ [(s.nextId, "")], s.nextId + 1⟩) ∧
    (∀ ops : List SkillOp, (idsOf (runOps ops)).Nodup ∧
      ∀ e ∈ (runOps ops).entries, e.1 < (runOps ops).nextId) ∧
    (∀ ops extra : List SkillOp,
      (runOps ops).nextId ≤ (runOps (ops ++ extra)).nextId) ∧
    (∀ s : SkillsState, ∀ i : Nat, ∀ v : String,
      idsOf (applyOp s (SkillOp.update i v)) = idsOf s) ∧
    (∀ s : SkillsState, ∀ i : Nat,
      (applyOp s (SkillOp.remove i)).entries.Sublist s.entries) := by
  refine ⟨fun s => rfl,
    fun ops => goodIds_foldl ops initSkills ⟨by decide, by decide⟩,
    fun ops extra => ?_, fun s i v => ?_, fun s i => ?_⟩
  · unfold runOps
    rw [List.foldl_append]
    exact nextId_le_foldl extra _
  · show idsOf (match s.entries[i]? with
      | some e => (⟨s.entries.set i (e.1, v), s.nextId⟩ : SkillsState)
      | none => s) = idsOf s
    cases hg : s.entries[i]? with
    | none => rfl
    | some e =>
      show (s.entries.set i (e.1, v)).map Prod.fst = s.entries.map Prod.fst
      exact map_fst_set s.entries i v e hg
  · show (if s.entries.length = 1 then s
      else (⟨s.entries.eraseIdx i, s.nextId⟩ : SkillsState)).entries.Sublist s.entries
    by_cases h1 : s.entries.length = 1
    · rw [if_pos h1]
    · rw [if_neg h1]
      exact List.eraseIdx_sublist s.entries i

/-- C8 witness: appending to the initial list adds the fresh key 1 at the end;
key bounds hold on a concrete reachable state; the counter is monotone over a
concrete extension; updating entry 0 keeps the keys. -/
theorem skills_identity_keys_witness :
    applyOp initSkills SkillOp.append = ⟨[(0, ""), (1, "")], 2⟩ ∧
    (0 : Nat) < (runOps [SkillOp.append]).nextId ∧
    (runOps []).nextId ≤ (runOps ([] ++ [SkillOp.append])).nextId ∧
    idsOf (applyOp initSkills (SkillOp.update 0 "Go")) = idsOf initSkills :=
  ⟨skills_identity_keys.1 initSkills,
   (skills_identity_keys.2.1 [SkillOp.append]).2 (0, "") (by decide),
   skills_identity_keys.2.2.1 [] [SkillOp.append],
   skills_identity_keys.2.2.2.1 initSkills 0 "Go"⟩
